import Mathlib

/-!
Verification development for the cf-report-users CloudFoundry CLI plugin.

The development shallowly embeds the Go sources:
* `simpleClient.Get` / `simpleClient.List` (the HTTP fetcher and the
  paginated list walker),
* `reportUsers` (the user/role report, current version with the
  `output-json`, `quiet` and `org-users` flags),
* `reportBuildpacks` (the timestamp-based buildpack usage report).

Machine integers do not occur; timestamps (`time.Time`) are embedded as
integer nanoseconds since the Go zero time, so `t1.After(t0)` is `t0 < t1`
and `d.Hours()` is `d / 3600e9` as a rational number.

Side effects are made explicit: HTTP requests, buildpack-map reads and
buildpack-map writes performed by the Go code are recorded in an event
trace (`Ev`), mutable accumulator state (`allInfo`, the rows table, the
`buildpacks` map) is threaded through the callbacks, and fallible Go code
returns `Except`.
-/

/-- Error values produced by `simpleClient.Get`: a transport failure from
building or performing the request, the `errors.New("bad status code")`
error for a non-200 status, or a JSON decode failure. -/
inductive CFError where
  | transport
  | badStatusCode
  | decode
  deriving DecidableEq, Repr

/-- Observable actions performed by the Go code while a report runs: an
HTTP GET of a URL, a read of the `buildpacks` map (with whether the key
was present), and a write to the `buildpacks` map. -/
inductive Ev where
  | get (url : String)
  | lookup (guid : String) (hit : Bool)
  | insert (guid : String)
  deriving DecidableEq, Repr

/-- Embeds the `Metadata` part of the Go `resource` struct. `updatedAt`
is `metadata.updated_at` in nanoseconds since the Go zero time; the Go
zero `time.Time` is `0`, and every timestamp decoded from the API is at
least the zero time, hence nonnegative. -/
structure ResourceMetadata where
  guid : String := ""
  updatedAt : Int := 0
  deriving DecidableEq, Repr

/-- Embeds the `Entity` part of the Go `resource` struct, one field per
Go field.  Fields that are absent in a given payload keep the Go zero
value, exactly as `json.Unmarshal` leaves them. -/
structure ResourceEntity where
  name : String := ""
  spacesURL : String := ""
  usersURL : String := ""
  managersURL : String := ""
  billingManagersURL : String := ""
  auditorsURL : String := ""
  developersURL : String := ""
  appsURL : String := ""
  buildpackGUID : String := ""
  buildpack : String := ""
  admin : Bool := false
  username : String := ""
  filename : String := ""
  enabled : Bool := false
  packageUpdatedAt : Int := 0
  deriving DecidableEq, Repr

/-- Embeds the Go `resource` struct (the generic CloudFoundry envelope). -/
structure Resource where
  metadata : ResourceMetadata := {}
  entity : ResourceEntity := {}
  deriving DecidableEq, Repr

/-- A paginated collection as served by the upstream API: the chain of
pages that `simpleClient.List` walks by following `next_url`.  Each page
is recorded with the URL it is fetched from together with its resources;
the chain ends either normally (the last page's `next_url` is empty,
`tailError = none`) or with a page whose fetch fails
(`tailError = some (url, e)`).  An infinite `next_url` chain is not
representable; the Go loop would not terminate on one (documented
limitation of the source). -/
structure Paged (α : Type) where
  pages : List (String × List α) := []
  tailError : Option (String × CFError) := none

/-- Result of running the list walker: the elements the callback was
invoked on (in invocation order), the trace of actions performed, and
the value `List` returns — the final callback state on success, or the
first error. -/
structure WalkResult (σ α : Type) where
  visited : List α
  events : List Ev
  result : Except CFError σ

/-- The inner `for _, rr := range res.Resources` loop of
`simpleClient.List`: invokes the callback on each resource of one page in
order, stopping at the first error.  The callback receives the threaded
accumulator state and reports the actions (nested HTTP gets, map
accesses) it performs. -/
def pageWalk (f : σ → α → List Ev × Except CFError σ) : σ → List α → WalkResult σ α
  | s, [] => ⟨[], [], Except.ok s⟩
  | s, r :: rs =>
    match f s r with
    | (evs, Except.error e) => ⟨[r], evs, Except.error e⟩
    | (evs, Except.ok s1) =>
      let w := pageWalk f s1 rs
      ⟨r :: w.visited, evs ++ w.events, w.result⟩

/-- The outer `for r != ""` loop of `simpleClient.List`: fetch a page
(recorded as an `Ev.get` of its URL), hand its resources to `pageWalk`,
then continue with the next page; a callback error or a page-fetch error
stops the loop immediately. -/
def pagesWalk (f : σ → α → List Ev × Except CFError σ) :
    σ → List (String × List α) → Option (String × CFError) → WalkResult σ α
  | s, [], none => ⟨[], [], Except.ok s⟩
  | _, [], some ue => ⟨[], [Ev.get ue.1], Except.error ue.2⟩
  | s, (u, pg) :: rest, te =>
    match pageWalk f s pg with
    | ⟨vs, evs, Except.error e⟩ => ⟨vs, Ev.get u :: evs, Except.error e⟩
    | ⟨vs, evs, Except.ok s1⟩ =>
      let w := pagesWalk f s1 rest te
      ⟨vs ++ w.visited, (Ev.get u :: evs) ++ w.events, w.result⟩

/-- Embeds `simpleClient.List` (the Go method is named `List`; that name
denotes the core list type in Lean, hence `ListWalk`).  Walks the page
chain of the collection, invoking `f` once per resource in encounter
order. -/
def ListWalk (f : σ → α → List Ev × Except CFError σ) (s : σ) (c : Paged α) : WalkResult σ α :=
  pagesWalk f s c.pages c.tailError

/-- Lift of a callback that performs no HTTP or map actions of its own
(it only updates the threaded accumulator), such as the row-appending
closures of `reportUsers`. -/
def silent (f : σ → α → Except CFError σ) : σ → α → List Ev × Except CFError σ :=
  fun s a => ([], f s a)

/-- All resources of a page chain, in upstream order. -/
def pagesItems (pages : List (String × List α)) : List α :=
  (pages.map Prod.snd).flatten

/-- Running a callback over a flat list of resources, stopping at the
first error; the reference semantics the walker is compared against. -/
def foldVisit (f : σ → α → Except CFError σ) : σ → List α → Except CFError σ
  | s, [] => Except.ok s
  | s, r :: rs =>
    match f s r with
    | Except.error e => Except.error e
    | Except.ok s1 => foldVisit f s1 rs

/-- An HTTP response as seen by `Get` after the transport layer: the
status code, and the result of JSON-decoding the body into the target
shape (`none` when decoding fails). -/
structure HttpResponse (α : Type) where
  statusCode : Nat
  body : Option α

/-- Outcome of one HTTP request attempt: a transport-level failure
(request construction or `client.Do` returning an error), or a response. -/
inductive Attempt (α : Type) where
  | transportFailure
  | response (r : HttpResponse α)

/-- Embeds the `simpleClient` struct fields that `Get` reads. -/
structure SimpleClient where
  api : String := ""
  authorization : String := ""
  quiet : Bool := false

/-- Embeds `simpleClient.Get`.  `server n` is what the `n`-th request
attempt against the path would produce; `Get` performs exactly one
attempt.  Returns the progress-log lines written to stderr and the
result: the decoded value on a 200 response whose body decodes, an error
otherwise. -/
def Get (sc : SimpleClient) (path : String) (server : Nat → Attempt α) :
    List String × Except CFError α :=
  ((if sc.quiet then [] else [s!"GET {sc.api}{path}"]),
   match server 0 with
   | Attempt.transportFailure => Except.error CFError.transport
   | Attempt.response r =>
     if r.statusCode ≠ 200 then Except.error CFError.badStatusCode
     else
       match r.body with
       | some v => Except.ok v
       | none => Except.error CFError.decode)

/-- Embeds the `userInfoLineItem` struct of `reportUsers`.  The `space`
field carries the `omitempty` JSON tag in Go; it is the empty string for
organization-level roles. -/
structure UserInfoLineItem where
  organization : String
  space : String := ""
  username : String
  role : String
  deriving DecidableEq, Repr

/-- A space resource together with the collections served at its
`developers_url`, `managers_url` and `auditors_url`. -/
structure SpaceNode where
  space : Resource
  developers : Paged Resource := {}
  managers : Paged Resource := {}
  auditors : Paged Resource := {}

/-- An organization resource together with the collections served at its
`users_url`, `managers_url`, `billing_managers_url`, `auditors_url` and
`spaces_url`. -/
structure OrgNode where
  org : Resource
  users : Paged Resource := {}
  managers : Paged Resource := {}
  billingManagers : Paged Resource := {}
  auditors : Paged Resource := {}
  spaces : Paged SpaceNode := {}

/-- The line item the `reportUsers` role closures append to `allInfo`:
the enclosing organization's name, the space name (empty at organization
level), the visited user's username and the role label of the current
role-table entry. -/
def roleLineItem (orgName spName role : String) (u : Resource) : UserInfoLineItem :=
  { organization := orgName, space := spName, username := u.entity.username, role := role }

/-- One `client.List(role.URL, ...)` call of `reportUsers`: walks a role's
user collection, appending a line item per user to the accumulator. -/
def walkRoleUsers (orgName spName role : String) (c : Paged Resource)
    (acc : List UserInfoLineItem) : WalkResult (List UserInfoLineItem) Resource :=
  ListWalk (silent fun items u => Except.ok (items ++ [roleLineItem orgName spName role u])) acc c

/-- The `for _, role := range [...]` loop of `reportUsers` over a fixed
role table of (label, collection, Do) entries, at either level; entries
whose `Do` flag is false are skipped (`continue`).  The space-level
table has no `Do` column in Go; it is embedded with `Do = true`
throughout. -/
def walkRoleTable (orgName spName : String) :
    List (String × Paged Resource × Bool) → List UserInfoLineItem →
      List Ev × Except CFError (List UserInfoLineItem)
  | [], items => ([], Except.ok items)
  | (role, c, doIt) :: rest, items =>
    if doIt then
      match walkRoleUsers orgName spName role c items with
      | ⟨_, evs, Except.error e⟩ => (evs, Except.error e)
      | ⟨_, evs, Except.ok items1⟩ =>
        let p := walkRoleTable orgName spName rest items1
        (evs ++ p.1, p.2)
    else walkRoleTable orgName spName rest items

/-- The space callback of `reportUsers`: for each of SpaceDeveloper,
SpaceManager, SpaceAuditor (in that order), walk the role's user
collection of the space. -/
def spaceVisit (orgName : String) (items : List UserInfoLineItem) (sp : SpaceNode) :
    List Ev × Except CFError (List UserInfoLineItem) :=
  walkRoleTable orgName sp.space.entity.name
    [("SpaceDeveloper", sp.developers, true),
     ("SpaceManager", sp.managers, true),
     ("SpaceAuditor", sp.auditors, true)] items

/-- The organization callback of `reportUsers`: walk the four
organization-level role collections (OrgUser only when `includeOrgUsers`
is set), then walk the organization's space collection with
`spaceVisit`. -/
def orgVisit (includeOrgUsers : Bool) (items : List UserInfoLineItem) (o : OrgNode) :
    List Ev × Except CFError (List UserInfoLineItem) :=
  match walkRoleTable o.org.entity.name ""
      [("OrgUser", o.users, includeOrgUsers),
       ("OrgManager", o.managers, true),
       ("OrgBillingManager", o.billingManagers, true),
       ("OrgAuditor", o.auditors, true)] items with
  | (evs, Except.error e) => (evs, Except.error e)
  | (evs, Except.ok items1) =>
    let w := ListWalk (spaceVisit o.org.entity.name) items1 o.spaces
    (evs ++ w.events, w.result)

/-- The accumulation phase of `reportUsers`: the
`client.List("/v2/organizations", ...)` call that fills `allInfo`,
starting from the empty accumulator. -/
def reportUsersCollect (includeOrgUsers : Bool) (orgs : Paged OrgNode) :
    WalkResult (List UserInfoLineItem) OrgNode :=
  ListWalk (orgVisit includeOrgUsers) [] orgs

/-- The rendering `reportUsers` performs on success: a JSON encoding of
`allInfo` when `output-json` is set, otherwise the table with its header
row. -/
inductive Rendered where
  | json (items : List UserInfoLineItem)
  | table (rows : List (List String))
  deriving DecidableEq, Repr

/-- The observable outcome of a full `reportUsers` run: the collected
`allInfo` sequence (or the propagated error), the progress-log lines
written to stderr, and the rendered report (absent when the run failed —
`log.Fatal` emits no report). -/
structure RunResult where
  collected : Except CFError (List UserInfoLineItem)
  logs : List String
  rendered : Option Rendered

/-- Embeds a full `reportUsers` run.  The collection phase never reads
`quiet` or `outputJSON`: `quiet` is read inside `Get` to decide whether
each `GET url` progress line is printed (extensionally, the printed log
is the fetch trace when `quiet` is unset and empty when it is set), and
`outputJSON` is read only after `allInfo` is complete, to pick the
rendering. -/
def reportUsersRun (sc : SimpleClient) (outputJSON includeOrgUsers : Bool)
    (orgs : Paged OrgNode) : RunResult :=
  let w := reportUsersCollect includeOrgUsers orgs
  { collected := w.result
    logs :=
      if sc.quiet then []
      else w.events.filterMap fun e =>
        match e with
        | Ev.get u => some (s!"GET {sc.api}{u}")
        | _ => none
    rendered :=
      match w.result with
      | Except.error _ => none
      | Except.ok items =>
        some (if outputJSON then Rendered.json items
          else Rendered.table
            (["Organization", "Space", "Username", "Role"] ::
              items.map fun it => [it.organization, it.space, it.username, it.role])) }

/-- A space resource together with the application collection served at
its `apps_url`, for the buildpack report. -/
structure BSpace where
  space : Resource
  apps : Paged Resource := {}

/-- An organization resource together with the space collection served at
its `spaces_url`, for the buildpack report. -/
structure BOrg where
  org : Resource
  spaces : Paged BSpace := {}

/-- State threaded through the buildpack report traversal: the table rows
appended so far, and the `buildpacks` map (a GUID-keyed cache, embedded
as an association list inserted into only when a key is absent). -/
abbrev BPState := List (List String) × List (String × Resource)

/-- The path `fmt.Sprintf("/v2/buildpacks/%s", guid)`. -/
def bpURL (guid : String) : String := s!"/v2/buildpacks/{guid}"

/-- Go `bp.Metadata.UpdatedAt.Sub(app.Entity.PackageUpdatedAt).Hours()`:
the nanosecond difference of the two timestamps, in hours, as an exact
rational (`time.Duration.Hours` divides the nanosecond count by 3.6e12). -/
def hoursBetween (t1 t0 : Int) : ℚ := ((t1 - t0 : Int) : ℚ) / 3600000000000

/-- Go `int(math.Ceil(hours / 24.0))` on the hour difference of the
buildpack's `updated_at` and the application's `package_updated_at`:
the hour difference divided by 24 and rounded up (`int` truncation of an
already integral float is the identity). -/
def oodDaysOf (bp app : Resource) : Int :=
  Int.ceil (hoursBetween bp.metadata.updatedAt app.entity.packageUpdatedAt / 24)

/-- The "Out of date" cell computed per application by
`reportBuildpacks`: the rounded-up day difference when the buildpack was
updated strictly after the application's package
(`bp.Metadata.UpdatedAt.After(...)`), otherwise "Needs attention" when
the buildpack is not enabled, otherwise empty. -/
def oodCell (bp app : Resource) : String :=
  if bp.metadata.updatedAt > app.entity.packageUpdatedAt then
    let d := oodDaysOf bp app
    s!"{d} days"
  else if bp.entity.enabled = false then "Needs attention"
  else ""

/-- The row `reportBuildpacks` appends to the table for one application. -/
def bpRow (orgName spName : String) (app bp : Resource) : List String :=
  [orgName, spName, app.entity.name, app.entity.buildpack, oodCell bp app]

/-- The zero-valued `var bbp resource` that a failed buildpack fetch
leaves behind, after `bbp.Entity.Filename = app.Entity.Buildpack` and
`bbp.Entity.Enabled = false`. -/
def fallbackBuildpack (app : Resource) : Resource :=
  { metadata := {}, entity := { filename := app.entity.buildpack, enabled := false } }

/-- The application callback of `reportBuildpacks`: look the app's
`detected_buildpack_guid` up in the `buildpacks` map; on a miss, fetch
`/v2/buildpacks/<guid>` (falling back to `fallbackBuildpack` when the
fetch fails) and cache the result under the GUID; then append the app's
row.  The callback itself never returns an error.  `bpFetch guid` is the
outcome `client.Get` would produce for the buildpack with that GUID. -/
def appVisit (bpFetch : String → Except CFError Resource) (orgName spName : String)
    (st : BPState) (app : Resource) : List Ev × Except CFError BPState :=
  let guid := app.entity.buildpackGUID
  match st.2.lookup guid with
  | some bp =>
    ([Ev.lookup guid true],
     Except.ok (st.1 ++ [bpRow orgName spName app bp], st.2))
  | none =>
    let bbp :=
      match bpFetch guid with
      | Except.ok b => b
      | Except.error _ => fallbackBuildpack app
    ([Ev.lookup guid false, Ev.get (bpURL guid), Ev.insert guid],
     Except.ok (st.1 ++ [bpRow orgName spName app bbp], (guid, bbp) :: st.2))

/-- The space callback of `reportBuildpacks`: walk the space's
application collection with `appVisit`. -/
def bpSpaceVisit (bpFetch : String → Except CFError Resource) (orgName : String)
    (st : BPState) (sp : BSpace) : List Ev × Except CFError BPState :=
  let w := ListWalk (appVisit bpFetch orgName sp.space.entity.name) st sp.apps
  (w.events, w.result)

/-- The organization callback of `reportBuildpacks`: walk the
organization's space collection with `bpSpaceVisit`. -/
def bpOrgVisit (bpFetch : String → Except CFError Resource)
    (st : BPState) (o : BOrg) : List Ev × Except CFError BPState :=
  let w := ListWalk (bpSpaceVisit bpFetch o.org.entity.name) st o.spaces
  (w.events, w.result)

/-- Embeds `reportBuildpacks` (the timestamp-based variant): walk
`/v2/organizations` with `bpOrgVisit`, starting from an empty table and
an empty `buildpacks` map.  On success the state holds the rows the
rendered table would show; on error no report is emitted
(`table.Render()` is unreachable). -/
def reportBuildpacks (bpFetch : String → Except CFError Resource)
    (orgs : Paged BOrg) : WalkResult BPState BOrg :=
  ListWalk (bpOrgVisit bpFetch) ([], []) orgs

theorem foldVisit_append (f : σ → α → Except CFError σ) (s : σ) (l1 l2 : List α) :
    foldVisit f s (l1 ++ l2) =
      match foldVisit f s l1 with
      | Except.ok s1 => foldVisit f s1 l2
      | Except.error e => Except.error e := by
  induction l1 generalizing s with
  | nil => simp [foldVisit]
  | cons r rs ih =>
    simp only [List.cons_append, foldVisit]
    cases f s r with
    | error e => simp
    | ok s1 => simpa using ih s1

theorem foldVisit_append_ok (f : σ → α → Except CFError σ) {s s2 : σ} {l1 l2 : List α}
    (h : foldVisit f s (l1 ++ l2) = Except.ok s2) :
    ∃ s1, foldVisit f s l1 = Except.ok s1 ∧ foldVisit f s1 l2 = Except.ok s2 := by
  have hh := foldVisit_append f s l1 l2
  rw [h] at hh
  cases hsp : foldVisit f s l1 with
  | error e => rw [hsp] at hh; exact absurd hh.symm (by simp)
  | ok s1 => rw [hsp] at hh; exact ⟨s1, rfl, hh.symm⟩

theorem pageWalk_silent_ok (f : σ → α → Except CFError σ) {s s1 : σ} {l : List α}
    (h : foldVisit f s l = Except.ok s1) :
    pageWalk (silent f) s l = ⟨l, [], Except.ok s1⟩ := by
  induction l generalizing s with
  | nil => simp [foldVisit] at h; simp [pageWalk, h]
  | cons r rs ih =>
    simp only [foldVisit] at h
    cases hf : f s r with
    | error e => rw [hf] at h; simp at h
    | ok s0 =>
      rw [hf] at h
      simp only [pageWalk, silent, hf, ih h]
      simp

theorem pageWalk_silent_error (f : σ → α → Except CFError σ) {s s1 : σ} {e : CFError}
    {a : List α} (r : α) (b : List α)
    (hok : foldVisit f s a = Except.ok s1) (herr : f s1 r = Except.error e) :
    pageWalk (silent f) s (a ++ r :: b) = ⟨a ++ [r], [], Except.error e⟩ := by
  induction a generalizing s with
  | nil =>
    simp [foldVisit] at hok
    subst hok
    simp [pageWalk, silent, herr]
  | cons x xs ih =>
    simp only [foldVisit] at hok
    cases hf : f s x with
    | error e2 => rw [hf] at hok; simp at hok
    | ok s0 =>
      rw [hf] at hok
      have hrec := ih hok
      simp only [List.cons_append, pageWalk, silent, hf]
      rw [List.append_eq, hrec]
      simp

theorem foldVisit_total (f : σ → α → Except CFError σ)
    (hf : ∀ s a, ∃ s1, f s a = Except.ok s1) (s : σ) (l : List α) :
    ∃ s1, foldVisit f s l = Except.ok s1 := by
  induction l generalizing s with
  | nil => exact ⟨s, rfl⟩
  | cons r rs ih =>
    obtain ⟨s0, h0⟩ := hf s r
    obtain ⟨s1, h1⟩ := ih s0
    exact ⟨s1, by simp [foldVisit, h0, h1]⟩

theorem pagesWalk_silent_total (f : σ → α → Except CFError σ)
    (hf : ∀ s a, ∃ s1, f s a = Except.ok s1) (pages : List (String × List α)) (s : σ) :
    ∃ s1, pagesWalk (silent f) s pages none =
      ⟨pagesItems pages, pages.map (fun p => Ev.get p.1), Except.ok s1⟩ := by
  induction pages generalizing s with
  | nil => exact ⟨s, rfl⟩
  | cons p rest ih =>
    obtain ⟨u, pg⟩ := p
    obtain ⟨s0, h0⟩ := foldVisit_total f hf s pg
    obtain ⟨s1, h1⟩ := ih s0
    refine ⟨s1, ?_⟩
    simp only [pagesWalk, pageWalk_silent_ok f h0, h1, pagesItems]
    simp

theorem pagesWalk_silent_error (f : σ → α → Except CFError σ) {s s1 : σ} {e : CFError}
    (pref : List (String × List α)) (u : String) (a : List α) (r : α) (b : List α)
    (suff : List (String × List α)) (te : Option (String × CFError))
    (hok : foldVisit f s (pagesItems pref ++ a) = Except.ok s1)
    (herr : f s1 r = Except.error e) :
    pagesWalk (silent f) s (pref ++ (u, a ++ r :: b) :: suff) te =
      ⟨pagesItems pref ++ (a ++ [r]),
       pref.map (fun p => Ev.get p.1) ++ [Ev.get u],
       Except.error e⟩ := by
  induction pref generalizing s with
  | nil =>
    simp only [pagesItems, List.map_nil, List.flatten_nil, List.nil_append] at hok ⊢
    simp only [pagesWalk, pageWalk_silent_error f r b hok herr]
  | cons p rest ih =>
    obtain ⟨u0, l0⟩ := p
    have hsplit : pagesItems ((u0, l0) :: rest) ++ a = l0 ++ (pagesItems rest ++ a) := by
      simp [pagesItems]
    rw [hsplit] at hok
    obtain ⟨s0, h0, h1⟩ := foldVisit_append_ok f hok
    have hrec := ih h1
    simp only [List.cons_append, pagesWalk, pageWalk_silent_ok f h0]
    simp only [List.append_eq]
    rw [hrec]
    simp [pagesItems]

/-- C1.  For every paginated collection whose last page carries an empty
continuation reference and every visit callback that does not abort, the
List walker invokes the callback exactly once per resource, in the order
resources appear within each page and pages appear in the chain: the
invocation trace equals the concatenation of the pages, whatever the
distribution of the resources across pages, and the walk succeeds. -/
theorem c1_walker_visits_each_resource_once_in_order
    (f : σ → α → Except CFError σ) (s : σ) (c : Paged α)
    (hte : c.tailError = none) (hf : ∀ s a, ∃ s1, f s a = Except.ok s1) :
    (ListWalk (silent f) s c).visited = pagesItems c.pages ∧
      ∃ s1, (ListWalk (silent f) s c).result = Except.ok s1 := by
  obtain ⟨s1, h⟩ := pagesWalk_silent_total f hf c.pages s
  rw [ListWalk, hte, h]
  exact ⟨rfl, s1, rfl⟩

/-- Counting callback used to check C1 on a concrete collection. -/
def countVisits : Nat → Resource → Except CFError Nat :=
  fun n _ => Except.ok (n + 1)

/-- Three resources distributed across two pages. -/
def twoPageCollection : Paged Resource :=
  { pages := [("/p1", [{ entity := { name := "r1" } }, { entity := { name := "r2" } }]),
              ("/p2", [{ entity := { name := "r3" } }])] }

/-- Concrete check of C1: a counting callback over three resources spread
across two pages is invoked exactly on those three resources in order. -/
theorem c1_witness :
    (ListWalk (silent countVisits) 0 twoPageCollection).visited =
        pagesItems twoPageCollection.pages ∧
      ∃ s1, (ListWalk (silent countVisits) 0 twoPageCollection).result = Except.ok s1 :=
  c1_walker_visits_each_resource_once_in_order countVisits 0 twoPageCollection rfl
    (fun s _ => ⟨s + 1, rfl⟩)

/-- C2.  If the visit callback errors on the i-th resource of the
collection (the resources before it — those of the preceding pages and
the part of the current page before it — are processed successfully, and
the callback returns `error e` on it), then List returns that same
error, the callback is invoked on no resource after the i-th, and no
page after the current one is fetched: the fetch trace is exactly the
preceding pages and the current page. -/
theorem c2_walker_aborts_on_callback_error
    (f : σ → α → Except CFError σ) (s s1 : σ) (e : CFError)
    (pref : List (String × List α)) (u : String) (a : List α) (r : α) (b : List α)
    (suff : List (String × List α)) (te : Option (String × CFError))
    (hok : foldVisit f s (pagesItems pref ++ a) = Except.ok s1)
    (herr : f s1 r = Except.error e) :
    ListWalk (silent f) s ⟨pref ++ (u, a ++ r :: b) :: suff, te⟩ =
      ⟨pagesItems pref ++ (a ++ [r]),
       pref.map (fun p => Ev.get p.1) ++ [Ev.get u],
       Except.error e⟩ :=
  pagesWalk_silent_error f pref u a r b suff te hok herr

/-- Callback used to check C2: it rejects the resource named "bad". -/
def rejectBad : Nat → Resource → Except CFError Nat :=
  fun n x => if x.entity.name = "bad" then Except.error CFError.decode else Except.ok (n + 1)

/-- The first page of the C2 check collection. -/
def c2page1 : String × List Resource := ("/p1", [{ entity := { name := "r1" } }])

/-- The part of the second page before the rejected resource. -/
def c2before : List Resource := [{ entity := { name := "r2" } }]

/-- The rejected resource. -/
def c2bad : Resource := { entity := { name := "bad" } }

/-- The part of the second page after the rejected resource. -/
def c2after : List Resource := [{ entity := { name := "r3" } }]

/-- The third page of the C2 check collection, which must not be fetched. -/
def c2page3 : String × List Resource := ("/p3", [{ entity := { name := "r4" } }])

/-- Concrete check of C2: the callback rejects the second resource of the
second page; the walker stops there with that error and the third page
is never fetched. -/
theorem c2_witness :
    foldVisit rejectBad 0 (pagesItems [c2page1] ++ c2before) = Except.ok 2 ∧
    ListWalk (silent rejectBad) 0
        ⟨[c2page1, ("/p2", c2before ++ c2bad :: c2after), c2page3], none⟩ =
      ⟨pagesItems [c2page1] ++ (c2before ++ [c2bad]),
       [c2page1].map (fun p => Ev.get p.1) ++ [Ev.get "/p2"],
       Except.error CFError.decode⟩ :=
  ⟨rfl,
   c2_walker_aborts_on_callback_error rejectBad 0 2 CFError.decode
     [c2page1] "/p2" c2before c2bad c2after [c2page3] none rfl rfl⟩

/-- C7.  For every request whose HTTP response carries a non-success
status, Get returns an error for that request (the "bad status code"
error; the decoded target is never produced), and Get does not retry:
its entire behaviour depends only on the first attempt, so any server
agreeing on the first attempt yields the identical outcome — no second
attempt is ever consulted. -/
theorem c7_get_no_retry_on_bad_status (sc : SimpleClient) (path : String)
    (server : Nat → Attempt α) (r : HttpResponse α)
    (hresp : server 0 = Attempt.response r) (hbad : r.statusCode ≠ 200) :
    (Get sc path server).2 = Except.error CFError.badStatusCode ∧
      ∀ server2 : Nat → Attempt α, server2 0 = server 0 →
        Get sc path server2 = Get sc path server := by
  refine ⟨?_, ?_⟩
  · simp [Get, hresp, hbad]
  · intro server2 hsame
    simp [Get, hsame]

/-- A server answering every attempt with an empty 500 response. -/
def alwaysServer500 : Nat → Attempt Resource :=
  fun _ => Attempt.response ⟨500, none⟩

/-- Concrete check of C7 on a 500 response. -/
theorem c7_witness :
    (Get { api := "https://api" } "/v2/organizations" alwaysServer500).2 =
        Except.error CFError.badStatusCode ∧
      ∀ server2 : Nat → Attempt Resource, server2 0 = alwaysServer500 0 →
        Get { api := "https://api" } "/v2/organizations" server2 =
          Get { api := "https://api" } "/v2/organizations" alwaysServer500 :=
  c7_get_no_retry_on_bad_status { api := "https://api" } "/v2/organizations"
    alwaysServer500 ⟨500, none⟩ rfl (by decide)

/-- C9.  Get succeeds with value v exactly when the single response it
sees has status exactly 200 and a body that decodes to v: any other
status — including non-200 success statuses such as 201 or 204 — and any
decode failure yield an error, and no value is produced from the body. -/
theorem c9_get_success_iff_200_and_decodes (sc : SimpleClient) (path : String)
    (server : Nat → Attempt α) (v : α) :
    (Get sc path server).2 = Except.ok v ↔
      server 0 = Attempt.response ⟨200, some v⟩ := by
  cases hs : server 0 with
  | transportFailure => simp [Get, hs]
  | response r =>
    obtain ⟨code, body⟩ := r
    by_cases h200 : code = 200
    · subst h200
      cases body with
      | none => simp [Get, hs]
      | some w => simp [Get, hs]
    · simp [Get, hs, h200]

/-- A resource with every field at its Go zero value. -/
def blankResource : Resource := {}

/-- Concrete check of C9: a 201 response, although a success status, does
not let Get succeed. -/
theorem c9_witness :
    ¬ ((Get { api := "https://api" } "/v2/stacks"
          (fun _ => Attempt.response ⟨201, some blankResource⟩)).2 =
        Except.ok blankResource) :=
  fun h => by
    have h2 := (c9_get_success_iff_200_and_decodes { api := "https://api" } "/v2/stacks"
      (fun _ => Attempt.response ⟨201, some blankResource⟩) blankResource).mp h
    simp at h2

/-- The user alice of the C4 example. -/
def userAlice : Resource := { entity := { username := "alice" } }

/-- The user bob of the C4 example. -/
def userBob : Resource := { entity := { username := "bob" } }

/-- The user carol of the C4 example. -/
def userCarol : Resource := { entity := { username := "carol" } }

/-- The space "prod" of the C4 example, whose SpaceDeveloper collection
contains only carol. -/
def prodSpace : SpaceNode :=
  { space := { entity := { name := "prod" } }
    developers := { pages := [("/spaces/prod/developers", [userCarol])] } }

/-- The organization "acme" of the C4 example: OrgManager = {alice},
OrgAuditor = {bob}, one space "prod". -/
def acmeOrg : OrgNode :=
  { org := { entity := { name := "acme", spacesURL := "/orgs/acme/spaces" } }
    managers := { pages := [("/orgs/acme/managers", [userAlice])] }
    auditors := { pages := [("/orgs/acme/auditors", [userBob])] }
    spaces := { pages := [("/orgs/acme/spaces", [prodSpace])] } }

/-- The organization collection of the C4 example. -/
def acmeTree : Paged OrgNode := { pages := [("/v2/organizations", [acmeOrg])] }

/-- C4.  With the org-users option disabled, the acme example produces
exactly the line items (acme, "", alice, OrgManager),
(acme, "", bob, OrgAuditor), (acme, prod, carol, SpaceDeveloper), in
that order. -/
theorem c4_acme_example :
    (reportUsersRun { api := "https://api" } false false acmeTree).collected =
      Except.ok
        [{ organization := "acme", space := "", username := "alice", role := "OrgManager" },
         { organization := "acme", space := "", username := "bob", role := "OrgAuditor" },
         { organization := "acme", space := "prod", username := "carol", role := "SpaceDeveloper" }] :=
  rfl

/-- C10.  For a fixed upstream tree, the collected line-item sequence of
the user/role report is the same for every combination of the quiet and
output-json flags: the collection phase never reads them — quiet gates
only the progress-log lines and output-json only the rendering of the
already-collected sequence. -/
theorem c10_flags_do_not_affect_collected_items (api auth : String)
    (q1 q2 oJ1 oJ2 inc : Bool) (orgs : Paged OrgNode) :
    (reportUsersRun { api := api, authorization := auth, quiet := q1 } oJ1 inc orgs).collected =
      (reportUsersRun { api := api, authorization := auth, quiet := q2 } oJ2 inc orgs).collected :=
  rfl

/-- Scan deciding whether every buildpack-index insertion in a trace
precedes every index lookup; the flag records whether a lookup has been
seen.  `indexBuiltBeforeLookups` is C3's claim — "the index build phase
has completed over the whole buildpack collection before any lookup" —
read off an event trace: no insertion may occur once a lookup has
happened. -/
def insertsPrecedeLookups : Bool → List Ev → Bool
  | _, [] => true
  | seenLookup, Ev.insert _ :: rest => !seenLookup && insertsPrecedeLookups seenLookup rest
  | _, Ev.lookup _ _ :: rest => insertsPrecedeLookups true rest
  | seenLookup, Ev.get _ :: rest => insertsPrecedeLookups seenLookup rest

/-- Whether a run's trace populates the whole buildpack index before any
cross-reference lookup into it. -/
def indexBuiltBeforeLookups (evs : List Ev) : Bool :=
  insertsPrecedeLookups false evs

/-- An application with buildpack GUID g1. -/
def bpApp1 : Resource :=
  { entity := { name := "app1", buildpackGUID := "g1", buildpack := "go_buildpack" } }

/-- An application with buildpack GUID g2. -/
def bpApp2 : Resource :=
  { entity := { name := "app2", buildpackGUID := "g2", buildpack := "ruby_buildpack" } }

/-- A space holding the two applications on one page. -/
def bpSpace1 : BSpace :=
  { space := { entity := { name := "dev", appsURL := "/spaces/s1/apps" } }
    apps := { pages := [("/spaces/s1/apps", [bpApp1, bpApp2])] } }

/-- An organization holding that space. -/
def bpOrg1 : BOrg :=
  { org := { entity := { name := "org1", spacesURL := "/orgs/o1/spaces" } }
    spaces := { pages := [("/orgs/o1/spaces", [bpSpace1])] } }

/-- The organization collection of the C3 run. -/
def bpTree1 : Paged BOrg := { pages := [("/v2/organizations", [bpOrg1])] }

/-- A buildpack fetch that succeeds for every GUID. -/
def bpOkFetch : String → Except CFError Resource :=
  fun g => Except.ok { metadata := { guid := g, updatedAt := 0 }, entity := { enabled := true } }

/-- C3 counterexample.  In the concrete buildpack-report run over one
organization, one space and two applications with distinct buildpack
GUIDs, the index is not fully populated before the first cross-reference
lookup: the trace looks g1 up (a miss) and only later inserts g2, so the
claimed two-phase discipline fails on this run. -/
theorem c3_counterexample :
    indexBuiltBeforeLookups (reportBuildpacks bpOkFetch bpTree1).events = false :=
  rfl

/-- One organization, one space, two applications on one page, for the
buildpack report. -/
def twoAppTree (org sp app1 app2 : Resource) : Paged BOrg :=
  { pages := [("/v2/organizations",
      [{ org := org,
         spaces := { pages := [(org.entity.spacesURL,
           [{ space := sp,
              apps := { pages := [(sp.entity.appsURL, [app1, app2])] } }])] } }])] }

/-- C3 amended.  The buildpack index is populated lazily while the
application traversal runs, not in a prior build phase: each
application's buildpack GUID is first looked up in the index, and on a
miss the buildpack is fetched and inserted at that point, so insertions
interleave with lookups.  For any two applications with distinct GUIDs
the trace is exactly lookup-miss/fetch/insert for the first application
followed by lookup-miss/fetch/insert for the second. -/
theorem c3_lazy_index_population (org sp app1 app2 : Resource)
    (bpFetch : String → Except CFError Resource)
    (hne : app1.entity.buildpackGUID ≠ app2.entity.buildpackGUID) :
    (reportBuildpacks bpFetch (twoAppTree org sp app1 app2)).events =
      [Ev.get "/v2/organizations", Ev.get org.entity.spacesURL, Ev.get sp.entity.appsURL,
       Ev.lookup app1.entity.buildpackGUID false, Ev.get (bpURL app1.entity.buildpackGUID),
       Ev.insert app1.entity.buildpackGUID,
       Ev.lookup app2.entity.buildpackGUID false, Ev.get (bpURL app2.entity.buildpackGUID),
       Ev.insert app2.entity.buildpackGUID] := by
  have hb : (app2.entity.buildpackGUID == app1.entity.buildpackGUID) = false :=
    beq_eq_false_iff_ne.mpr (Ne.symm hne)
  simp [reportBuildpacks, ListWalk, pagesWalk, pageWalk, bpOrgVisit, bpSpaceVisit, appVisit,
    twoAppTree, List.lookup, hb]

/-- Concrete check of the amended C3 on the two-application run. -/
theorem c3_witness :
    (reportBuildpacks bpOkFetch (twoAppTree bpOrg1.org bpSpace1.space bpApp1 bpApp2)).events =
      [Ev.get "/v2/organizations", Ev.get bpOrg1.org.entity.spacesURL,
       Ev.get bpSpace1.space.entity.appsURL,
       Ev.lookup bpApp1.entity.buildpackGUID false, Ev.get (bpURL bpApp1.entity.buildpackGUID),
       Ev.insert bpApp1.entity.buildpackGUID,
       Ev.lookup bpApp2.entity.buildpackGUID false, Ev.get (bpURL bpApp2.entity.buildpackGUID),
       Ev.insert bpApp2.entity.buildpackGUID] :=
  c3_lazy_index_population bpOrg1.org bpSpace1.space bpApp1 bpApp2 bpOkFetch (by decide)

/-- The claim's reading of the out-of-date estimate: the difference of
the two timestamps (nanoseconds) expressed in days — the hour difference
divided by 24 — rounded up to the next integer.  Stated directly over a
day's worth of nanoseconds; compared below against the
hours-then-divide-by-24 computation the code performs. -/
def specOutOfDateDays (bpUpdatedAt packageUpdatedAt : Int) : Int :=
  Int.ceil (((bpUpdatedAt - packageUpdatedAt : Int) : ℚ) / 86400000000000)

theorem oodDaysOf_eq_specOutOfDateDays (bp app : Resource) :
    oodDaysOf bp app = specOutOfDateDays bp.metadata.updatedAt app.entity.packageUpdatedAt := by
  unfold oodDaysOf specOutOfDateDays hoursBetween
  rw [div_div]
  norm_num

/-- One organization, one space, one application, for the buildpack
report. -/
def oneAppTree (org sp app : Resource) : Paged BOrg :=
  { pages := [("/v2/organizations",
      [{ org := org,
         spaces := { pages := [(org.entity.spacesURL,
           [{ space := sp,
              apps := { pages := [(sp.entity.appsURL, [app])] } }])] } }])] }

/-- C8.  When the resolved buildpack's updated-at timestamp is strictly
after the application's package-updated-at timestamp, the reported
out-of-date estimate is the difference of the two timestamps in days,
i.e. the hour difference divided by 24 and rounded up to the next
integer. -/
theorem c8_out_of_date_days (org sp app bp : Resource)
    (bpFetch : String → Except CFError Resource)
    (hfetch : bpFetch app.entity.buildpackGUID = Except.ok bp)
    (hafter : bp.metadata.updatedAt > app.entity.packageUpdatedAt) :
    (reportBuildpacks bpFetch (oneAppTree org sp app)).result =
      Except.ok
        ([[org.entity.name, sp.entity.name, app.entity.name, app.entity.buildpack,
           s!"{specOutOfDateDays bp.metadata.updatedAt app.entity.packageUpdatedAt} days"]],
         [(app.entity.buildpackGUID, bp)]) := by
  simp [reportBuildpacks, ListWalk, pagesWalk, pageWalk, bpOrgVisit, bpSpaceVisit, appVisit,
    oneAppTree, List.lookup, hfetch, bpRow, oodCell, hafter,
    oodDaysOf_eq_specOutOfDateDays]

/-- The buildpack resolved in the C8 check: updated 48 hours after the
zero time. -/
def c8bp : Resource :=
  { metadata := { guid := "g1", updatedAt := 172800000000000 }, entity := { enabled := true } }

/-- A fetch returning `c8bp` for every GUID. -/
def c8Fetch : String → Except CFError Resource := fun _ => Except.ok c8bp

/-- Concrete check of C8: a buildpack updated 48 hours after the
application's package is reported 2 days out of date. -/
theorem c8_witness :
    (reportBuildpacks c8Fetch (oneAppTree bpOrg1.org bpSpace1.space bpApp1)).result =
      Except.ok
        ([[bpOrg1.org.entity.name, bpSpace1.space.entity.name, bpApp1.entity.name,
           bpApp1.entity.buildpack,
           s!"{specOutOfDateDays c8bp.metadata.updatedAt bpApp1.entity.packageUpdatedAt} days"]],
         [(bpApp1.entity.buildpackGUID, c8bp)]) :=
  c8_out_of_date_days bpOrg1.org bpSpace1.space bpApp1 c8bp c8Fetch rfl (by decide)

/-- The error component of a walk result: which error, if any, the run
propagates. -/
def resultErr : Except CFError σ → Option CFError
  | Except.error e => some e
  | Except.ok _ => none

theorem pageWalk_err_congr {σ1 σ2 : Type}
    (f1 : σ1 → α → List Ev × Except CFError σ1) (f2 : σ2 → α → List Ev × Except CFError σ2)
    (h : ∀ s1 s2 a, resultErr (f1 s1 a).2 = resultErr (f2 s2 a).2) :
    ∀ (l : List α) (s1 : σ1) (s2 : σ2),
      resultErr (pageWalk f1 s1 l).result = resultErr (pageWalk f2 s2 l).result := by
  intro l
  induction l with
  | nil => intro s1 s2; rfl
  | cons r rs ih =>
    intro s1 s2
    have hr := h s1 s2 r
    rcases h1 : f1 s1 r with ⟨evs1, r1⟩
    rcases h2 : f2 s2 r with ⟨evs2, r2⟩
    rw [h1, h2] at hr
    cases r1 with
    | error e1 =>
      cases r2 with
      | error e2 =>
        simp [resultErr] at hr
        subst hr
        simp [pageWalk, h1, h2, resultErr]
      | ok t2 => simp [resultErr] at hr
    | ok t1 =>
      cases r2 with
      | error e2 => simp [resultErr] at hr
      | ok t2 => simp [pageWalk, h1, h2, ih t1 t2]

theorem pagesWalk_err_congr {σ1 σ2 : Type}
    (f1 : σ1 → α → List Ev × Except CFError σ1) (f2 : σ2 → α → List Ev × Except CFError σ2)
    (h : ∀ s1 s2 a, resultErr (f1 s1 a).2 = resultErr (f2 s2 a).2) :
    ∀ (pages : List (String × List α)) (te : Option (String × CFError)) (s1 : σ1) (s2 : σ2),
      resultErr (pagesWalk f1 s1 pages te).result =
        resultErr (pagesWalk f2 s2 pages te).result := by
  intro pages
  induction pages with
  | nil => intro te s1 s2; cases te <;> rfl
  | cons p rest ih =>
    intro te s1 s2
    obtain ⟨u, pg⟩ := p
    have hpw := pageWalk_err_congr f1 f2 h pg s1 s2
    rcases hw1 : pageWalk f1 s1 pg with ⟨vs1, evs1, r1⟩
    rcases hw2 : pageWalk f2 s2 pg with ⟨vs2, evs2, r2⟩
    rw [hw1, hw2] at hpw
    cases r1 with
    | error e1 =>
      cases r2 with
      | error e2 =>
        simp [resultErr] at hpw
        subst hpw
        simp [pagesWalk, hw1, hw2, resultErr]
      | ok t2 => simp [resultErr] at hpw
    | ok t1 =>
      cases r2 with
      | error e2 => simp [resultErr] at hpw
      | ok t2 => simp [pagesWalk, hw1, hw2, ih te t1 t2]

theorem ListWalk_err_congr {σ1 σ2 : Type}
    (f1 : σ1 → α → List Ev × Except CFError σ1) (f2 : σ2 → α → List Ev × Except CFError σ2)
    (h : ∀ s1 s2 a, resultErr (f1 s1 a).2 = resultErr (f2 s2 a).2)
    (c : Paged α) (s1 : σ1) (s2 : σ2) :
    resultErr (ListWalk f1 s1 c).result = resultErr (ListWalk f2 s2 c).result :=
  pagesWalk_err_congr f1 f2 h c.pages c.tailError s1 s2

theorem appVisit_never_errors (bpFetch : String → Except CFError Resource)
    (orgName spName : String) (st : BPState) (app : Resource) :
    resultErr (appVisit bpFetch orgName spName st app).2 = none := by
  cases h : List.lookup app.entity.buildpackGUID st.2 with
  | none => simp [appVisit, h, resultErr]
  | some bp => simp [appVisit, h, resultErr]

theorem bpSpaceVisit_err_congr (bpF1 bpF2 : String → Except CFError Resource)
    (orgName : String) (st1 st2 : BPState) (sp : BSpace) :
    resultErr (bpSpaceVisit bpF1 orgName st1 sp).2 =
      resultErr (bpSpaceVisit bpF2 orgName st2 sp).2 := by
  unfold bpSpaceVisit
  exact ListWalk_err_congr _ _
    (fun s1 s2 a => by
      rw [appVisit_never_errors bpF1 orgName sp.space.entity.name s1 a,
        appVisit_never_errors bpF2 orgName sp.space.entity.name s2 a])
    sp.apps st1 st2

theorem bpOrgVisit_err_congr (bpF1 bpF2 : String → Except CFError Resource)
    (st1 st2 : BPState) (o : BOrg) :
    resultErr (bpOrgVisit bpF1 st1 o).2 = resultErr (bpOrgVisit bpF2 st2 o).2 := by
  unfold bpOrgVisit
  exact ListWalk_err_congr _ _
    (fun s1 s2 a => bpSpaceVisit_err_congr bpF1 bpF2 o.org.entity.name s1 s2 a)
    o.spaces st1 st2

/-- One organization and one space whose application collection's very
fetch fails (the page chain ends in a failing fetch before any page). -/
def failingAppsTree (org sp : Resource) (u : String) (e : CFError) : Paged BOrg :=
  { pages := [("/v2/organizations",
      [{ org := org,
         spaces := { pages := [(org.entity.spacesURL,
           [{ space := sp,
              apps := { pages := [], tailError := some (u, e) } }])] } }])] }

/-- C5.  In the buildpack report, a failing per-application buildpack
lookup is the sole recoverable error.  First: which error (if any) a run
propagates never depends on the buildpack-fetch outcomes, so a lookup
failure alone never aborts a run.  Second: when the fetch for the first
of two applications fails, that application's row still appears — with
the "Needs attention" diagnostic — and the traversal continues to the
second application, whose row follows.  Third: any other fetch error
(here: a failing page fetch of an application collection) aborts the
whole run with that error and no report. -/
theorem c5_droplet_failure_sole_recoverable :
    (∀ (bpF1 bpF2 : String → Except CFError Resource) (orgs : Paged BOrg),
        resultErr (reportBuildpacks bpF1 orgs).result =
          resultErr (reportBuildpacks bpF2 orgs).result) ∧
    (∀ (org sp app1 app2 bp2 : Resource) (bpF : String → Except CFError Resource) (e : CFError),
        app1.entity.buildpackGUID ≠ app2.entity.buildpackGUID →
        bpF app1.entity.buildpackGUID = Except.error e →
        bpF app2.entity.buildpackGUID = Except.ok bp2 →
        0 ≤ app1.entity.packageUpdatedAt →
        (reportBuildpacks bpF (twoAppTree org sp app1 app2)).result =
          Except.ok
            ([[org.entity.name, sp.entity.name, app1.entity.name, app1.entity.buildpack,
               "Needs attention"],
              bpRow org.entity.name sp.entity.name app2 bp2],
             [(app2.entity.buildpackGUID, bp2),
              (app1.entity.buildpackGUID, fallbackBuildpack app1)])) ∧
    (∀ (bpF : String → Except CFError Resource) (org sp : Resource) (u : String) (e : CFError),
        (reportBuildpacks bpF (failingAppsTree org sp u e)).result = Except.error e) := by
  refine ⟨?_, ?_, ?_⟩
  · intro bpF1 bpF2 orgs
    exact ListWalk_err_congr _ _
      (fun s1 s2 a => bpOrgVisit_err_congr bpF1 bpF2 s1 s2 a) orgs ([], []) ([], [])
  · intro org sp app1 app2 bp2 bpF e hne hf1 hf2 hpkg
    have hb : (app2.entity.buildpackGUID == app1.entity.buildpackGUID) = false :=
      beq_eq_false_iff_ne.mpr (Ne.symm hne)
    simp [reportBuildpacks, ListWalk, pagesWalk, pageWalk, bpOrgVisit, bpSpaceVisit, appVisit,
      twoAppTree, List.lookup, hb, hf1, hf2, bpRow, oodCell, fallbackBuildpack]
    exact fun hlt => absurd hlt (not_lt.mpr hpkg)
  · intro bpF org sp u e
    simp [reportBuildpacks, ListWalk, pagesWalk, pageWalk, bpOrgVisit, bpSpaceVisit,
      failingAppsTree]

/-- A buildpack fetch that fails for every GUID. -/
def bpFailFetch : String → Except CFError Resource :=
  fun _ => Except.error CFError.transport

/-- A buildpack fetch failing for g1 and resolving g2. -/
def c5Fetch : String → Except CFError Resource :=
  fun g => if g == "g2" then Except.ok c8bp else Except.error CFError.badStatusCode

/-- Concrete check of C5: the propagated error is the same whether every
buildpack fetch succeeds or every one fails; with the first app's fetch
failing its row reads "Needs attention" and the second app's row still
follows; a failing application-collection page fetch aborts the run. -/
theorem c5_witness :
    resultErr (reportBuildpacks bpOkFetch bpTree1).result =
        resultErr (reportBuildpacks bpFailFetch bpTree1).result ∧
    (reportBuildpacks c5Fetch (twoAppTree bpOrg1.org bpSpace1.space bpApp1 bpApp2)).result =
      Except.ok
        ([[bpOrg1.org.entity.name, bpSpace1.space.entity.name, bpApp1.entity.name,
           bpApp1.entity.buildpack, "Needs attention"],
          bpRow bpOrg1.org.entity.name bpSpace1.space.entity.name bpApp2 c8bp],
         [(bpApp2.entity.buildpackGUID, c8bp),
          (bpApp1.entity.buildpackGUID, fallbackBuildpack bpApp1)]) ∧
    (reportBuildpacks c5Fetch
        (failingAppsTree bpOrg1.org bpSpace1.space "/spaces/s1/apps" CFError.decode)).result =
      Except.error CFError.decode :=
  ⟨c5_droplet_failure_sole_recoverable.1 bpOkFetch bpFailFetch bpTree1,
   c5_droplet_failure_sole_recoverable.2.1 bpOrg1.org bpSpace1.space bpApp1 bpApp2 c8bp
     c5Fetch CFError.badStatusCode (by decide) rfl rfl (by decide),
   c5_droplet_failure_sole_recoverable.2.2 c5Fetch bpOrg1.org bpSpace1.space
     "/spaces/s1/apps" CFError.decode⟩

/-- The organization-level role labels of the user/role report. -/
def orgRoleNames : List String :=
  ["OrgUser", "OrgManager", "OrgBillingManager", "OrgAuditor"]

/-- C6's claimed invariant on one line item: non-empty organization,
non-empty username, and the space field empty exactly for the
organization-level roles. -/
def LineItemInvariant (it : UserInfoLineItem) : Prop :=
  it.organization ≠ "" ∧ it.username ≠ "" ∧ (it.space = "" ↔ it.role ∈ orgRoleNames)

/-- An organization whose upstream payload carries an empty name. -/
def emptyNameOrg : OrgNode :=
  { org := { entity := { name := "" } }
    managers := { pages := [("/orgs/x/managers", [userAlice])] } }

/-- The organization collection of the C6 counterexample run. -/
def emptyNameTree : Paged OrgNode := { pages := [("/v2/organizations", [emptyNameOrg])] }

/-- C6 counterexample.  The report copies upstream names through
unchanged, so an organization served with an empty name yields a line
item whose Organization field is empty: the claimed invariant fails on a
produced item of this concrete run. -/
theorem c6_counterexample :
    (reportUsersRun { api := "https://api" } false false emptyNameTree).collected =
        Except.ok
          [{ organization := "", space := "", username := "alice", role := "OrgManager" }] ∧
      ¬ LineItemInvariant
          { organization := "", space := "", username := "alice", role := "OrgManager" } :=
  ⟨rfl, fun h => h.1 rfl⟩

theorem pageWalk_inv {P : σ → Prop} (f : σ → α → List Ev × Except CFError σ) :
    ∀ l : List α,
      (∀ s a, a ∈ l → P s → ∀ evs s2, f s a = (evs, Except.ok s2) → P s2) →
      ∀ s s2, P s → (pageWalk f s l).result = Except.ok s2 → P s2 := by
  intro l
  induction l with
  | nil =>
    intro _ s s2 hs hres
    simp [pageWalk] at hres
    exact hres ▸ hs
  | cons r rs ih =>
    intro hf s s2 hs hres
    rcases hfr : f s r with ⟨evs, res⟩
    cases res with
    | error e => simp [pageWalk, hfr] at hres
    | ok s1 =>
      have hP1 : P s1 := hf s r (by simp) hs evs s1 hfr
      simp only [pageWalk, hfr] at hres
      exact ih (fun s a ha => hf s a (by simp [ha])) s1 s2 hP1 hres

theorem pagesWalk_inv {P : σ → Prop} (f : σ → α → List Ev × Except CFError σ) :
    ∀ (pages : List (String × List α)) (te : Option (String × CFError)),
      (∀ s a, a ∈ pagesItems pages → P s → ∀ evs s2, f s a = (evs, Except.ok s2) → P s2) →
      ∀ s s2, P s → (pagesWalk f s pages te).result = Except.ok s2 → P s2 := by
  intro pages
  induction pages with
  | nil =>
    intro te _ s s2 hs hres
    cases te with
    | none => simp [pagesWalk] at hres; exact hres ▸ hs
    | some ue => simp [pagesWalk] at hres
  | cons p rest ih =>
    intro te hf s s2 hs hres
    obtain ⟨u, pg⟩ := p
    rcases hw : pageWalk f s pg with ⟨vs, evs, res⟩
    cases res with
    | error e => simp [pagesWalk, hw] at hres
    | ok s1 =>
      have hP1 : P s1 := by
        refine pageWalk_inv f pg (fun s a ha => hf s a ?_) s s1 hs (by rw [hw])
        simp [pagesItems]
        exact Or.inl ha
      simp only [pagesWalk, hw] at hres
      refine ih te (fun s a ha => hf s a ?_) s1 s2 hP1 hres
      simp [pagesItems] at ha ⊢
      exact Or.inr ha

theorem ListWalk_inv {P : σ → Prop} (f : σ → α → List Ev × Except CFError σ) (c : Paged α)
    (hf : ∀ s a, a ∈ pagesItems c.pages → P s → ∀ evs s2, f s a = (evs, Except.ok s2) → P s2)
    (s : σ) (s2 : σ) (hs : P s) (hres : (ListWalk f s c).result = Except.ok s2) : P s2 :=
  pagesWalk_inv f c.pages c.tailError hf s s2 hs hres

/-- All items of an accumulator satisfy C6's invariant. -/
def AllInv (items : List UserInfoLineItem) : Prop :=
  ∀ it ∈ items, LineItemInvariant it

theorem walkRoleUsers_inv (orgName spName role : String) (c : Paged Resource)
    (acc : List UserInfoLineItem)
    (horg : orgName ≠ "")
    (husers : ∀ u ∈ pagesItems c.pages, u.entity.username ≠ "")
    (hsp : spName = "" ↔ role ∈ orgRoleNames)
    (hacc : AllInv acc) :
    ∀ items2, (walkRoleUsers orgName spName role c acc).result = Except.ok items2 →
      AllInv items2 := by
  intro items2 hres
  refine ListWalk_inv _ c ?_ acc items2 hacc hres
  intro s a ha hP evs s2 heq
  simp only [silent, Prod.mk.injEq] at heq
  obtain ⟨-, heq2⟩ := heq
  have hs2 : s2 = s ++ [roleLineItem orgName spName role a] := by
    cases heq2; rfl
  subst hs2
  intro it hit
  rcases List.mem_append.mp hit with hold | hnew
  · exact hP it hold
  · have : it = roleLineItem orgName spName role a := by simpa using hnew
    subst this
    exact ⟨horg, husers a ha, hsp⟩

theorem walkRoleTable_inv (orgName spName : String) :
    ∀ (table : List (String × Paged Resource × Bool)) (items items2 : List UserInfoLineItem),
      orgName ≠ "" →
      (∀ rc ∈ table, (∀ u ∈ pagesItems (rc.2.1 : Paged Resource).pages, u.entity.username ≠ "") ∧
        (spName = "" ↔ rc.1 ∈ orgRoleNames)) →
      AllInv items →
      (walkRoleTable orgName spName table items).2 = Except.ok items2 →
      AllInv items2 := by
  intro table
  induction table with
  | nil =>
    intro items items2 _ _ hitems hres
    simp [walkRoleTable] at hres
    exact hres ▸ hitems
  | cons rc rest ih =>
    intro items items2 horg htab hitems hres
    obtain ⟨role, c, doIt⟩ := rc
    by_cases hdo : doIt = true
    · subst hdo
      rcases hw : walkRoleUsers orgName spName role c items with ⟨vs, evs, res⟩
      cases res with
      | error e => simp [walkRoleTable, hw] at hres
      | ok items1 =>
        have h1 : AllInv items1 := by
          refine walkRoleUsers_inv orgName spName role c items horg ?_ ?_ hitems items1
            (by rw [hw])
          · exact (htab (role, c, true) (by simp)).1
          · exact (htab (role, c, true) (by simp)).2
        simp only [walkRoleTable, if_true, hw] at hres
        exact ih items1 items2 horg (fun x hx => htab x (by simp [hx])) h1 hres
    · have hdo2 : doIt = false := by
        cases doIt
        · rfl
        · exact absurd rfl hdo
      subst hdo2
      simp only [walkRoleTable, if_false, Bool.false_eq_true] at hres
      exact ih items items2 horg (fun x hx => htab x (by simp [hx])) hitems hres

/-- Well-formed upstream space data: non-empty space name, non-empty
usernames in each role collection. -/
def WFSpace (sp : SpaceNode) : Prop :=
  sp.space.entity.name ≠ "" ∧
  (∀ u ∈ pagesItems sp.developers.pages, u.entity.username ≠ "") ∧
  (∀ u ∈ pagesItems sp.managers.pages, u.entity.username ≠ "") ∧
  (∀ u ∈ pagesItems sp.auditors.pages, u.entity.username ≠ "")

/-- Well-formed upstream organization data: non-empty organization name,
non-empty usernames in each role collection, well-formed spaces. -/
def WFOrg (o : OrgNode) : Prop :=
  o.org.entity.name ≠ "" ∧
  (∀ u ∈ pagesItems o.users.pages, u.entity.username ≠ "") ∧
  (∀ u ∈ pagesItems o.managers.pages, u.entity.username ≠ "") ∧
  (∀ u ∈ pagesItems o.billingManagers.pages, u.entity.username ≠ "") ∧
  (∀ u ∈ pagesItems o.auditors.pages, u.entity.username ≠ "") ∧
  (∀ sp ∈ pagesItems o.spaces.pages, WFSpace sp)

/-- Well-formed upstream tree: every served organization is well-formed. -/
def WFTree (orgs : Paged OrgNode) : Prop :=
  ∀ o ∈ pagesItems orgs.pages, WFOrg o

theorem spaceVisit_inv (orgName : String) (sp : SpaceNode)
    (items items2 : List UserInfoLineItem)
    (horg : orgName ≠ "") (hwf : WFSpace sp) (hitems : AllInv items)
    (hres : (spaceVisit orgName items sp).2 = Except.ok items2) : AllInv items2 := by
  refine walkRoleTable_inv orgName sp.space.entity.name _ items items2 horg ?_ hitems hres
  intro rc hrc
  have hiff : ∀ role2 : String, role2 ∉ orgRoleNames →
      (sp.space.entity.name = "" ↔ role2 ∈ orgRoleNames) :=
    fun role2 hr => iff_of_false hwf.1 hr
  simp only [List.mem_cons, List.mem_singleton, List.not_mem_nil, or_false] at hrc
  rcases hrc with h | h | h <;> subst h
  · exact ⟨hwf.2.1, hiff "SpaceDeveloper" (by decide)⟩
  · exact ⟨hwf.2.2.1, hiff "SpaceManager" (by decide)⟩
  · exact ⟨hwf.2.2.2, hiff "SpaceAuditor" (by decide)⟩

theorem orgVisit_inv (inc : Bool) (o : OrgNode) (items items2 : List UserInfoLineItem)
    (hwf : WFOrg o) (hitems : AllInv items)
    (hres : (orgVisit inc items o).2 = Except.ok items2) : AllInv items2 := by
  rcases hwt : walkRoleTable o.org.entity.name ""
      [("OrgUser", o.users, inc), ("OrgManager", o.managers, true),
       ("OrgBillingManager", o.billingManagers, true),
       ("OrgAuditor", o.auditors, true)] items with ⟨evs, res⟩
  cases res with
  | error e => simp [orgVisit, hwt] at hres
  | ok items1 =>
    have h1 : AllInv items1 := by
      refine walkRoleTable_inv o.org.entity.name "" _ items items1 hwf.1 ?_ hitems
        (by rw [hwt])
      intro rc hrc
      simp only [List.mem_cons, List.mem_singleton, List.not_mem_nil, or_false] at hrc
      rcases hrc with h | h | h | h <;> subst h
      · exact ⟨hwf.2.1, by simp [orgRoleNames]⟩
      · exact ⟨hwf.2.2.1, by simp [orgRoleNames]⟩
      · exact ⟨hwf.2.2.2.1, by simp [orgRoleNames]⟩
      · exact ⟨hwf.2.2.2.2.1, by simp [orgRoleNames]⟩
    simp only [orgVisit, hwt] at hres
    refine ListWalk_inv _ o.spaces ?_ items1 items2 h1 hres
    intro s a ha hP evs2 s2 heq
    have := hwf.2.2.2.2.2 a ha
    exact spaceVisit_inv o.org.entity.name a s s2 hwf.1 this hP (by rw [heq])

/-- C6 amended.  Provided the upstream data is well-formed — every
organization and space is served with a non-empty name and every user
with a non-empty username — every line item produced by a successful
user/role report run has a non-empty Organization and Username, and its
Space field is empty exactly when the item records an organization-level
role.  (Unconditionally the claim is false: the report copies upstream
names through unchanged, see the counterexample.) -/
theorem c6_line_item_invariant (sc : SimpleClient) (outputJSON includeOrgUsers : Bool)
    (orgs : Paged OrgNode) (items : List UserInfoLineItem)
    (hwf : WFTree orgs)
    (hok : (reportUsersRun sc outputJSON includeOrgUsers orgs).collected = Except.ok items) :
    ∀ it ∈ items, LineItemInvariant it := by
  have hres : (reportUsersCollect includeOrgUsers orgs).result = Except.ok items := hok
  refine ListWalk_inv (P := AllInv) _ orgs ?_ [] items
    (fun it hit => absurd hit (List.not_mem_nil it)) hres
  intro s a ha hP evs s2 heq
  exact orgVisit_inv includeOrgUsers a s s2 (hwf a ha) hP (by rw [heq])

theorem acmeTree_wf : WFTree acmeTree := by
  intro o ho
  have ho2 : o = acmeOrg := by simpa [acmeTree, pagesItems] using ho
  subst ho2
  refine ⟨by decide, ?_, ?_, ?_, ?_, ?_⟩
  · intro u hu
    simp [acmeOrg, pagesItems] at hu
  · intro u hu
    have hu2 : u = userAlice := by simpa [acmeOrg, pagesItems] using hu
    subst hu2
    decide
  · intro u hu
    simp [acmeOrg, pagesItems] at hu
  · intro u hu
    have hu2 : u = userBob := by simpa [acmeOrg, pagesItems] using hu
    subst hu2
    decide
  · intro sp hsp
    have hsp2 : sp = prodSpace := by simpa [acmeOrg, pagesItems] using hsp
    subst hsp2
    refine ⟨by decide, ?_, ?_, ?_⟩
    · intro u hu
      have hu2 : u = userCarol := by simpa [prodSpace, pagesItems] using hu
      subst hu2
      decide
    · intro u hu
      simp [prodSpace, pagesItems] at hu
    · intro u hu
      simp [prodSpace, pagesItems] at hu

/-- Concrete check of the amended C6 on the acme example run: each of the
three produced line items satisfies the invariant. -/
theorem c6_witness :
    LineItemInvariant
        { organization := "acme", space := "", username := "alice", role := "OrgManager" } ∧
      LineItemInvariant
        { organization := "acme", space := "", username := "bob", role := "OrgAuditor" } ∧
      LineItemInvariant
        { organization := "acme", space := "prod", username := "carol",
          role := "SpaceDeveloper" } := by
  have h := c6_line_item_invariant { api := "https://api" } false false acmeTree
    [{ organization := "acme", space := "", username := "alice", role := "OrgManager" },
     { organization := "acme", space := "", username := "bob", role := "OrgAuditor" },
     { organization := "acme", space := "prod", username := "carol", role := "SpaceDeveloper" }]
    acmeTree_wf rfl
  exact ⟨h _ (by simp), h _ (by simp), h _ (by simp)⟩
